import Mathlib

/-!
# Verification of the kode-judge execution pipeline

A shallow embedding, in Lean 4, of the parts of the kode-judge code base
(API server + worker pool) that the claims of the specification are about:

* the submission status state machine and database updates of the worker
  (`src/worker/app/db_utils.py`, `src/worker/app/repositories/submission_repository.py`),
* the legacy worker job function (`src/worker/app/worker.py`, the target of
  every enqueue call `queue.enqueue("app.worker.process_submission", ...)`),
* the service-layer processing workflow
  (`src/worker/app/services/submission_processing_service.py`,
  `src/worker/app/services/sandbox_service.py`),
* the base64 transport codec (`src/server/app/utils/encoder.py`),
* the sparse-field projection (`src/server/app/utils/field_filter.py`),
* the sliding-window rate limiter (`src/server/app/utils/rate_limiter.py`).

Python dictionaries are modelled as association lists with first-insertion
order and in-place value update (CPython 3.7+ semantics); Python floats are
idealized as rationals; effectful steps (subprocess runs, file reads) are
driven by an explicit environment record so that every branch of the source
is a branch of the model.
-/

namespace KodeJudge

/- The Batteries rational-arithmetic primitives are `@[irreducible]`, which
blocks `decide`-style kernel evaluation of the models below; restore the
default reducibility locally. -/
attribute [local semireducible] Rat.add Rat.sub Rat.mul Rat.inv Rat.ofScientific

deriving instance DecidableEq for Except

/-- Submission lifecycle states, from `src/worker/app/db/models.py`
(`class SubmissionStatus`). -/
inductive SubmissionStatus where
  | PENDING
  | PROCESSING
  | FINISHED
  | ERROR
deriving DecidableEq, Repr

/-- A row of the `submissions` table as declared in the worker model
`src/worker/app/db/models.py` (`class Submission`).  The columns are exactly
`id`, `source_code`, `language_id`, `stdin`, `stdout`, `stderr`, `status`,
`meta`, `created_at` (timestamp omitted: no claim mentions it).  Note that the
worker model has **no** `compile_output` column. -/
structure SubRow where
  id : Nat
  source_code : String
  language_id : Nat
  stdin : Option String
  stdout : Option String
  stderr : Option String
  status : SubmissionStatus
  meta : Option (List (String × String))
deriving DecidableEq, Repr

/-- Models `update_submission_status` from `src/worker/app/db_utils.py` (lines 22-29),
identical in effect to `SubmissionRepository.update_status`
(`src/worker/app/repositories/submission_repository.py`, lines 22-36):
an UPDATE whose WHERE clause is `Submission.id == submission_id` only —
there is no condition on the current status, and the row count is never
inspected by any caller. -/
def update_submission_status (table : List SubRow) (sid : Nat)
    (st : SubmissionStatus) : List SubRow :=
  table.map (fun r => if r.id = sid then { r with status := st } else r)

/-- Models `update_submission_result` from `src/worker/app/db_utils.py` (lines 31-43),
identical in effect to `SubmissionRepository.update_result`
(`src/worker/app/repositories/submission_repository.py`, lines 38-62):
sets `status`, `stdout`, `stderr`, `meta` on the rows whose `id` matches.
The parameter list is exactly `(submission_id, status, stdout, stderr, meta)`:
there is no `compile_output` parameter. -/
def update_submission_result (table : List SubRow) (sid : Nat)
    (st : SubmissionStatus) (out err : String)
    (md : List (String × String)) : List SubRow :=
  table.map (fun r =>
    if r.id = sid then
      { r with status := st, stdout := some out, stderr := some err,
               meta := some md }
    else r)

/-! ## Python dictionary model

CPython dictionaries (3.7+) preserve first-insertion order and update values
in place.  `dictSet m k v` models `m[k] = v`; `dlookup` models `m.get(k)`. -/

/-- Models `m[k] = v` on a Python dict represented as an ordered association list:
replace the value at the first (unique) occurrence of `k`, else append. -/
def dictSet : List (String × String) → String → String → List (String × String)
  | [], k, v => [(k, v)]
  | p :: rest, k, v =>
      if p.1 = k then (k, v) :: rest else p :: dictSet rest k v

/-- Models `m.get(k)` on a Python dict represented as an association list. -/
def dlookup : List (String × String) → String → Option String
  | [], _ => none
  | p :: rest, k => if p.1 = k then some p.2 else dlookup rest k

/-! ## Python string primitives

Structurally recursive models of the Python string operations the source
uses (`split`, `strip`, `lower`, `startswith`, `replace`, `isdigit`), so
that every definition below evaluates by kernel reduction. -/

/-- Models `s.split(sep)` on character lists for a one-character separator:
`"a::b".split(":") == ["a", "", "b"]`, `"".split(":") == [""]`. -/
def splitChar (sep : Char) : List Char → List (List Char)
  | [] => [[]]
  | c :: rest =>
      let r := splitChar sep rest
      if c = sep then [] :: r
      else
        match r with
        | h :: t => (c :: h) :: t
        | [] => [[c]]

/-- Models `s.split(sep)` for a one-character separator, on strings. -/
def pySplit (s : String) (sep : Char) : List String :=
  (splitChar sep s.data).map (fun l => ⟨l⟩)

/-- Leading- and trailing-whitespace removal on character lists. -/
def trimChars (l : List Char) : List Char :=
  ((l.dropWhile Char.isWhitespace).reverse.dropWhile Char.isWhitespace).reverse

/-- Python `s.strip()`. -/
def pyStrip (s : String) : String := ⟨trimChars s.data⟩

/-- Python `s.lower()` (ASCII, the only case the compared constants use). -/
def pyLower (s : String) : String := ⟨s.data.map Char.toLower⟩

/-- Models `sub in s` for a one-character `sub`. -/
def strContainsChar (s : String) (c : Char) : Bool := s.data.any (fun d => d = c)

/-- Whether the first list is an initial segment of the second. -/
def charsStartWith : List Char → List Char → Bool
  | [], _ => true
  | _ :: _, [] => false
  | a :: as, b :: bs => a = b && charsStartWith as bs

/-- Python `s.startswith(pre)`. -/
def pyStartsWith (s pre : String) : Bool := charsStartWith pre.data s.data

/-- Models `sep.join(parts)`. -/
def joinWith (sep : String) : List String → String
  | [] => ""
  | [x] => x
  | x :: xs => x ++ sep ++ joinWith sep xs

/-- One pass of Python `s.replace(pat, rep)` (all non-overlapping
occurrences, left to right), with explicit fuel for structural recursion;
the fuel is instantiated with the length of the subject, which suffices
because every step consumes at least one character. -/
def replaceCharsAux (pat rep : List Char) : Nat → List Char → List Char
  | _, [] => []
  | 0, s => s
  | fuel + 1, c :: rest =>
      if pat ≠ [] ∧ charsStartWith pat (c :: rest) then
        rep ++ replaceCharsAux pat rep fuel ((c :: rest).drop pat.length)
      else c :: replaceCharsAux pat rep fuel rest

/-- Python `s.replace(pat, rep)`. -/
def pyReplace (s pat rep : String) : String :=
  ⟨replaceCharsAux pat.data rep.data s.data.length s.data⟩

/-! ## Meta-file parsing

Two distinct parsers exist in the source:

* `SandboxService.compile` / `SandboxService.execute`
  (`src/worker/app/services/sandbox_service.py`, lines 256-262 and 347-353):
  skip lines without a colon, split each remaining line at the **first**
  colon, last duplicate wins;
* the legacy job function (`src/worker/app/worker.py`, lines 85-88 and
  138-140): `dict(line.strip().split(":") for line in data.strip().split("\n"))`,
  which splits at **every** colon and raises `ValueError` whenever a line
  does not split into exactly two pieces. -/

/-- Split a (trimmed) line at its first colon: Python `t.split(":", 1)`.
Only called on lines that contain a colon. -/
def firstColonSplit (t : String) : String × String :=
  match pySplit t ':' with
  | [] => (t, "")
  | k :: rest => (k, joinWith ":" rest)

/-- One step of the service parser loop body
(`for line in meta_data.strip().split("\n"): if ":" in line: ...`). -/
def parseMetaStep (m : List (String × String)) (line : String) :
    List (String × String) :=
  if strContainsChar line ':' then
    let p := firstColonSplit (pyStrip line)
    dictSet m p.1 p.2
  else m

/-- The meta parser of `SandboxService.compile`/`SandboxService.execute`
(`src/worker/app/services/sandbox_service.py`, lines 256-262, 347-353). -/
def parseMetaService (contents : String) : List (String × String) :=
  (pySplit (pyStrip contents) '\n').foldl parseMetaStep []

/-- The legacy meta parser of `src/worker/app/worker.py` (lines 85-88,
138-140): `dict(line.strip().split(":") for line in contents.strip().split("\n"))`.
`dict(...)` raises `ValueError` (modelled as `none`) as soon as one of the
split results does not have exactly two elements, i.e. as soon as a line has
no colon or more than one colon. -/
def parseMetaLegacy (contents : String) : Option (List (String × String)) :=
  let pieces := (pySplit (pyStrip contents) '\n').map
    (fun l => pySplit (pyStrip l) ':')
  if pieces.all (fun p => p.length = 2) then
    some (pieces.foldl
      (fun m p => match p with
        | [k, v] => dictSet m k v
        | _ => m) [])
  else none

/-! ## Python numeric string helpers

`float(s)` and `str(f)` as used by `_execute_multiple_runs`
(`src/worker/app/services/submission_processing_service.py`, lines 75-92).
Python floats are idealized as rationals; `pyStr` renders the finite decimal
expansion (with a trailing `.0` for integral values), matching `str()` on
floats whose value has a short exact decimal form — the only values the
theorems below evaluate it at. -/

/-- Parse a list of decimal digit characters into a natural number. -/
def digitsToNat (cs : List Char) : Option Nat :=
  if cs ≠ [] ∧ cs.all Char.isDigit then
    some (cs.foldl (fun n c => n * 10 + (c.toNat - 48)) 0)
  else none

/-- Python `float(s)` for plain decimal literals: optional sign, integer
digits, optional fractional digits. -/
def pyFloat (s : String) : Option ℚ :=
  let t := trimChars s.data
  let (sign, body) : ℚ × List Char :=
    match t with
    | '-' :: cs => ((-1 : ℚ), cs)
    | '+' :: cs => ((1 : ℚ), cs)
    | cs => ((1 : ℚ), cs)
  match splitChar '.' body with
  | [ip] => (digitsToNat ip).map (fun n => sign * n)
  | [ip, fp] =>
      match digitsToNat ip, digitsToNat fp with
      | some n, some f =>
          some (sign * ((n : ℚ) + (f : ℚ) / ((10 : ℚ) ^ fp.length)))
      | _, _ => none
  | _ => none

/-- Render the fractional digits of `num / 10^k` (`k` digits, trailing zeros
stripped, at least one digit kept), as Python `str()` does. -/
def fracDigits (num : Nat) (k : Nat) : String :=
  let raw := (Nat.toDigits 10 num).asString
  let padded := "".pushn '0' (k - raw.length) ++ raw
  let stripped := (padded.toList.reverse.dropWhile (· = '0')).reverse.asString
  if stripped = "" then "0" else stripped

/-- Python `str(f)` for floats with an exact short decimal expansion. -/
def pyStr (q : ℚ) : String :=
  let sign := if q < 0 then "-" else ""
  let n := q.num.natAbs
  let d := q.den
  if d = 1 then sign ++ toString n ++ ".0"
  else
    match (List.range 18).find? (fun k => d ∣ 10 ^ k) with
    | some k =>
        let scaled := n * (10 ^ k / d)
        sign ++ toString (scaled / 10 ^ k) ++ "." ++
          fracDigits (scaled % 10 ^ k) k
    | none => sign ++ toString n ++ "/" ++ toString d

/-- Python `int(s)` for the strings reaching
`int(worker_name.split("-")[1])`: optional sign and decimal digits after
stripping whitespace; `ValueError` is modelled as `none`. -/
def pyInt (s : String) : Option Int :=
  match trimChars s.data with
  | '-' :: cs => (digitsToNat cs).map (fun n => -(n : Int))
  | '+' :: cs => (digitsToNat cs).map (fun n => (n : Int))
  | cs => (digitsToNat cs).map (fun n => (n : Int))

/-! ## Base64 transport codec

`src/server/app/utils/encoder.py` delegates to the Python `base64.b64encode`
and `base64.b64decode` (standard alphabet, `=`-padded, RFC 4648), applied to
the UTF-8 bytes of the text.  Text is modelled by its byte sequence
(`List Nat`, each `< 256`); the padded standard-alphabet codec is embedded
directly. -/

/-- The standard base64 alphabet. -/
def b64Alphabet : List Char :=
  "ABCDEFGHIJKLMNOPQRSTUVWXYZabcdefghijklmnopqrstuvwxyz0123456789+/".toList

/-- The alphabet character of a 6-bit value. -/
def b64Ch (n : Nat) : Char := b64Alphabet.getD n 'A'

/-- The 6-bit value of an alphabet character (`none` off-alphabet). -/
def b64Index (c : Char) : Option Nat :=
  let i := b64Alphabet.indexOf c
  if i < 64 then some i else none

/-- Models `base64.b64encode` on a byte sequence: 3 bytes become 4 alphabet
characters; a 1- or 2-byte tail is padded with `=`. -/
def b64EncodeBytes : List Nat → List Char
  | [] => []
  | [a] => [b64Ch (a / 4), b64Ch (a % 4 * 16), '=', '=']
  | [a, b] => [b64Ch (a / 4), b64Ch (a % 4 * 16 + b / 16),
               b64Ch (b % 16 * 4), '=']
  | a :: b :: c :: rest =>
      b64Ch (a / 4) :: b64Ch (a % 4 * 16 + b / 16) ::
      b64Ch (b % 16 * 4 + c / 64) :: b64Ch (c % 64) :: b64EncodeBytes rest

/-- Models `base64.b64decode` on a character sequence: groups of 4 alphabet
characters; a final `xx==` or `xxx=` group closes the stream.  Malformed
input is `binascii.Error` (a `ValueError`), modelled as `none`. -/
def b64DecodeChars : List Char → Option (List Nat)
  | [] => some []
  | c1 :: c2 :: c3 :: c4 :: rest =>
      match b64Index c1, b64Index c2 with
      | some v1, some v2 =>
          if c3 = '=' then
            if c4 = '=' ∧ rest = [] then some [v1 * 4 + v2 / 16] else none
          else
            match b64Index c3 with
            | some v3 =>
                if c4 = '=' then
                  if rest = [] then
                    some [v1 * 4 + v2 / 16, v2 % 16 * 16 + v3 / 4]
                  else none
                else
                  match b64Index c4 with
                  | some v4 =>
                      (b64DecodeChars rest).map
                        (fun tl =>
                          (v1 * 4 + v2 / 16) :: (v2 % 16 * 16 + v3 / 4) ::
                          (v3 % 4 * 64 + v4) :: tl)
                  | none => none
            | none => none
      | _, _ => none
  | _ => none

/-- Models `Base64Encoder.encode` (`src/server/app/utils/encoder.py`, lines 11-24):
`if not text: return ""`, else b64-encode the UTF-8 bytes. -/
def Base64Encoder.encode (text : List Nat) : List Char :=
  if text = [] then [] else b64EncodeBytes text

/-- Models `Base64Encoder.decode` (`src/server/app/utils/encoder.py`, lines 26-45):
`if not encoded_text: return ""`, else b64-decode; invalid base64 raises
`ValueError`, modelled as `Except.error`. -/
def Base64Encoder.decode (encoded : List Char) : Except String (List Nat) :=
  if encoded = [] then .ok []
  else
    match b64DecodeChars encoded with
    | some bs => .ok bs
    | none => .error "Invalid Base64 data"

/-- Models `Base64Encoder.encode_optional` (`encoder.py`, lines 47-60):
`None` stays `None`. -/
def Base64Encoder.encode_optional (text : Option (List Nat)) :
    Option (List Char) :=
  match text with
  | none => none
  | some t => some (Base64Encoder.encode t)

/-- Models `Base64Encoder.decode_optional` (`encoder.py`, lines 62-78):
`None` stays `None`. -/
def Base64Encoder.decode_optional (encoded : Option (List Char)) :
    Except String (Option (List Nat)) :=
  match encoded with
  | none => .ok none
  | some e => (Base64Encoder.decode e).map some

/-! ## Sparse-field projection

`src/server/app/utils/field_filter.py` (`class FieldFilter`).  Python sets
are modelled as duplicate-free lists in first-insertion order (the
enumeration order of a CPython set is irrelevant to every claim, which only
speak about the resulting key sets); `smem`/`sInsert` are membership and
insertion on that representation. -/

/-- Models `x in s` for a modelled Python set. -/
def smem (x : String) (l : List String) : Bool := l.any (fun y => y = x)

/-- Models `s.add(x)` for a modelled Python set. -/
def sInsert (l : List String) (x : String) : List String :=
  if smem x l then l else l ++ [x]

/-- A set built from an iterable (models a set literal / comprehension). -/
def sDedup (l : List String) : List String := l.foldl sInsert []

/-- Models `FieldFilter.DEFAULT_FIELDS` (`field_filter.py`, lines 12-21). -/
def DEFAULT_FIELDS : List String :=
  ["id", "status", "language_id", "stdout", "stderr", "stdin",
   "compile_output", "created_at"]

/-- Models `FieldFilter.ALL_FIELDS` (`field_filter.py`, lines 24-49). -/
def ALL_FIELDS : List String :=
  ["id", "source_code", "language_id", "stdin", "additional_files",
   "expected_output", "cpu_time_limit", "cpu_extra_time", "wall_time_limit",
   "memory_limit", "max_processes_and_or_threads", "max_file_size",
   "number_of_runs", "enable_per_process_and_thread_time_limit",
   "enable_per_process_and_thread_memory_limit", "redirect_stderr_to_stdout",
   "enable_network", "language", "status", "stdout", "stderr",
   "compile_output", "meta", "created_at"]

/-- The set comprehension of `field_filter.py`, line 75: the comma-split,
stripped, lowercased, non-empty tokens of a `fields` query string. -/
def fieldTokens (f : String) : List String :=
  sDedup (((pySplit f ',').map (fun t => pyLower (pyStrip t))).filter
    (fun t => t ≠ ""))

/-- Models `FieldFilter.parse_fields` (`field_filter.py`, lines 51-93). -/
def parse_fields (fields : Option String) : Option (List String) :=
  match fields with
  | none => none
  | some f =>
    if f = "" ∨ pyStrip f = "" then none
    else if pyLower (pyStrip f) = "all" then some ALL_FIELDS
    else
      let requested := fieldTokens f
      let result :=
        if smem "default" requested then
          (requested.filter (fun t => t ≠ "default")).foldl sInsert
            DEFAULT_FIELDS
        else sInsert requested "id"
      let valid := result.filter (fun x => smem x ALL_FIELDS)
      if valid = [] then none else some valid

/-- Models `FieldFilter.filter_data` (`field_filter.py`, lines 95-110):
`{k: v for k, v in data.items() if k in fields}`, with `None` standing for
`DEFAULT_FIELDS`. -/
def filter_data (data : List (String × String))
    (fields : Option (List String)) : List (String × String) :=
  let fs := fields.getD DEFAULT_FIELDS
  data.filter (fun kv => smem kv.1 fs)

/-! ## Sliding-window rate limiter

`RateLimiter._check_sliding_window`
(`src/server/app/utils/rate_limiter.py`, lines 114-156).  The Redis sorted
set behind one key is modelled as a list of scores (members are the string
forms of the float timestamps, so member identity coincides with score
identity); timestamps are rationals. -/

/-- The rate-limit info dictionary returned beside the decision. -/
structure RateInfo where
  limit : Int
  remaining : Int
  reset : Int
  retry_after : Option Int
deriving DecidableEq, Repr

/-- The outcome of one sliding-window check: decision, info, and the state
the sorted set is left in. -/
structure SlidingResult where
  allowed : Bool
  info : RateInfo
  state : List ℚ
deriving DecidableEq, Repr

/-- Models `ZREMRANGEBYSCORE key 0 cutoff`: removes members with score in
`[0, cutoff]`. -/
def zremTo (s : List ℚ) (cutoff : ℚ) : List ℚ :=
  s.filter (fun t => ¬ (0 ≤ t ∧ t ≤ cutoff))

/-- Models `ZADD key {str(now): now}`: inserts the member unless present. -/
def zaddScore (s : List ℚ) (t : ℚ) : List ℚ :=
  if t ∈ s then s else s ++ [t]

/-- The score of `ZRANGE key 0 0` — the smallest score of a non-empty set. -/
def oldestScore (s : List ℚ) : ℚ :=
  match s with
  | [] => 0
  | h :: t => t.foldl min h

/-- Models `RateLimiter._check_sliding_window` (`rate_limiter.py`, lines 114-156).
Pipeline: remove entries with score `≤ now - window`, read the cardinality,
add `now`, then allow iff the pre-add cardinality is below the limit; on
denial the reset is derived from the oldest remaining entry (the Python `int()`
truncation is `Int.floor` for the non-negative values involved; the
`if oldest_timestamp` truthiness test makes a zero score fall back to
`now + window`). -/
def checkSlidingWindow (s : List ℚ) (now : ℚ) (limit window : Int) :
    SlidingResult :=
  let pruned := zremTo s (now - window)
  let current_count : Int := pruned.length
  let after := zaddScore pruned now
  let is_allowed := current_count < limit
  let remaining := max 0 (limit - current_count - 1)
  let oldest : Option ℚ :=
    if is_allowed then none
    else match after with
         | [] => none
         | _ => some (oldestScore after)
  let reset : Int :=
    match oldest with
    | some q => if q ≠ 0 then ⌊q + window⌋ else ⌊now + window⌋
    | none => ⌊now + window⌋
  let retry_after : Option Int :=
    if is_allowed then none else some (reset - ⌊now⌋)
  { allowed := is_allowed,
    info := { limit := limit, remaining := remaining, reset := reset,
              retry_after := retry_after },
    state := after }

/-! ## Sandbox slot allocation

`src/worker/app/services/sandbox_service.py` (`class SandboxService`). -/

/-- The filesystem view `get_available_box_id` scans: whether
`/var/local/lib/isolate` exists and, if so, its entries as
`(name, is_directory)` pairs; plus the `random.randint(0, 999)` draw used
when every id is taken. -/
structure BoxScanEnv where
  baseExists : Bool
  entries : List (String × Bool)
  randomDraw : Fin 1000

/-- Python `str.isdigit` restricted to ASCII: non-empty and all digits. -/
def pyIsDigit (s : String) : Bool :=
  s ≠ "" ∧ s.data.all Char.isDigit

/-- Models `SandboxService.get_box_id_from_worker_name` (`sandbox_service.py`,
lines 80-97): if `RQ_WORKER_NAME` starts with `worker-`, parse
`name.split("-")[1]` as an int; `IndexError`/`ValueError` yields `None`. -/
def get_box_id_from_worker_name (workerName : String) : Option Int :=
  if pyStartsWith workerName "worker-" then
    match (pySplit workerName '-').get? 1 with
    | some piece => pyInt piece
    | none => none
  else none

/-- Models `SandboxService.get_available_box_id` (`sandbox_service.py`,
lines 99-120): collect the numeric directory names under the isolate base,
return the first id in `range(1000)` not in use, else a random id. -/
def get_available_box_id (env : BoxScanEnv) : Nat :=
  let used : List Nat :=
    if env.baseExists then
      (env.entries.filter (fun e => e.2 && pyIsDigit e.1)).filterMap
        (fun e => (digitsToNat e.1.data))
    else []
  match (List.range 1000).find? (fun b => !(used.any (fun u => u = b))) with
  | some b => b
  | none => env.randomDraw.val

/-- Models `SandboxService.determine_box_id` (`sandbox_service.py`, lines 122-139):
priority `assigned_box_id` > worker name > filesystem scan.  No range check
is applied on the first two sources. -/
def determine_box_id (assigned : Option Int) (workerName : String)
    (env : BoxScanEnv) : Int :=
  match assigned with
  | some b => b
  | none =>
    match get_box_id_from_worker_name workerName with
    | some b => b
    | none => get_available_box_id env

/-- The `isolate --init` command line built by `SandboxService.initialize`
(`sandbox_service.py`, lines 141-162): the determined box id is passed as
`--box-id=<id>`. -/
def serviceInitCmd (isolateBinary : String) (assigned : Option Int)
    (workerName : String) (env : BoxScanEnv) : List String :=
  [isolateBinary,
   "--box-id=" ++ toString (determine_box_id assigned workerName env),
   "--init"]

/-- The `isolate --init` command line of the legacy job function
(`src/worker/app/worker.py`, line 38): no `--box-id` argument at all. -/
def legacyInitCmd : List String :=
  ["/usr/local/bin/isolate", "--init"]

/-! ## The queue payload snapshots -/

/-- The language snapshot carried by the queue payload (the fields the worker
reads from `language_data`).  A missing/empty `language_data` dict (falsy in
`all([...])`) is modelled as `none` at the call sites. -/
structure LangData where
  name : String
  file_name : String
  file_extension : String
  compile_command : Option String
  run_command : String
deriving DecidableEq, Repr

/-- The submission snapshot carried by the queue payload (the fields the
worker reads from `submission_data`).  Each field holds the value of the
corresponding `.get(...)` call: `id` is falsy when `none` or `some 0`,
`source_code` is `none` exactly when the key is present with value `null`. -/
structure SubData where
  id : Option Nat := none
  source_code : Option String := some ""
  stdin : Option String := some ""
  expected_output : Option String := none
  number_of_runs : Option Nat := none
  additional_files : List (String × String) := []
deriving DecidableEq, Repr

/-- The envelope validation `all([submission_id, source_code is not None,
language_data])` shared by `worker.process_submission` (line 29) and
`SubmissionProcessingService.process` (line 113). -/
def validEnvelope (sub : SubData) (lang : Option LangData) : Bool :=
  (match sub.id with | some n => n ≠ 0 | none => false) &&
  (sub.source_code ≠ none) &&
  (lang ≠ none)

/-! ## The legacy job function

`src/worker/app/worker.py`, `process_submission` — the function every
enqueue call targets (`queue.enqueue("app.worker.process_submission", ...)`
in `src/server/app/services/submission_service.py`, line 398, and
`src/server/app/endpoints/submissions.py`, lines 100 and 224). -/

/-- The effects `process_submission` can perform, in order of occurrence. -/
inductive WEv where
  | updateStatus
  | initBox
  | compileRun
  | execRun
  | persist
  | cleanup
deriving DecidableEq, Repr

/-- Return values of the legacy `process_submission`. -/
inductive WRet where
  | invalidData
  | compileError
  | success
  | unexpectedError (details : String)
deriving DecidableEq, Repr

/-- The environment of one legacy run: the compile exit status, and the
contents of the files the function reads back from the box. -/
structure WEnv where
  compileReturncode : Int := 0
  compileStdout : String := ""
  compileStderr : String := ""
  compileMeta : String := ""
  runStdout : String := ""
  runStderr : String := ""
  runMeta : String := ""
deriving Repr

/-- Result of one legacy run: the database after all updates, the emitted
effects, and the return value. -/
structure WorkerOut where
  db : List SubRow
  trace : List WEv
  ret : WRet
deriving DecidableEq, Repr

/-- Models `str(e)` for the `ValueError` that `dict(...)` raises on a sequence
element whose length is not 2 (exact CPython text is version-dependent and
immaterial to every claim). -/
def legacyParseErrMsg : String :=
  "dictionary update sequence element has invalid length"

/-- The node.js warning line stripped from stderr
(`worker.py`, lines 132-137; `sandbox_service.py`, lines 339-345). -/
def nodeWarning : String :=
  "Warning: disabling flag --expose_wasm due to conflicting flags\n"

/-- Models `process_submission` from `src/worker/app/worker.py` (lines 23-177).
Validation happens before the `try` block; the `finally` block runs the
cleanup whenever `box_path` was assigned, which on every modelled path
inside the `try` it has been.  Note what this function does **not** do:
no status guard on the PENDING→PROCESSING update, no `--box-id` on init,
no `number_of_runs` loop, no `expected_output` comparison, no
`compile_output` anywhere, and its meta parser splits at every colon. -/
def workerProcessSubmission (env : WEnv) (sub : SubData)
    (lang : Option LangData) (table : List SubRow) : WorkerOut :=
  if ¬ validEnvelope sub lang then
    { db := table, trace := [], ret := .invalidData }
  else
    match sub.id, lang with
    | some sid, some l =>
      -- try block: claim-free status update, then sandbox init
      let db1 := update_submission_status table sid .PROCESSING
      let ev1 := [WEv.updateStatus, WEv.initBox]
      -- optional compile stage
      match l.compile_command with
      | some _ =>
        let ev2 := ev1 ++ [WEv.compileRun]
        if env.compileReturncode ≠ 0 then
          match parseMetaLegacy env.compileMeta with
          | some md =>
            { db := update_submission_result db1 sid .ERROR
                      env.compileStdout env.compileStderr md,
              trace := ev2 ++ [WEv.persist, WEv.cleanup],
              ret := .compileError }
          | none =>
            -- ValueError from dict(...), caught by the except handler
            { db := update_submission_result db1 sid .ERROR
                      "" legacyParseErrMsg [("error", "Worker exception")],
              trace := ev2 ++ [WEv.persist, WEv.cleanup],
              ret := .unexpectedError legacyParseErrMsg }
        else
          workerRunStage env db1 sid l (ev2 ++ [WEv.execRun])
      | none =>
        workerRunStage env db1 sid l (ev1 ++ [WEv.execRun])
    | _, _ => { db := table, trace := [], ret := .invalidData }
where
  /-- The single execution run and result analysis (`worker.py`,
  lines 105-155), shared by the compiled and interpreted paths. -/
  workerRunStage (env : WEnv) (db1 : List SubRow) (sid : Nat) (l : LangData)
      (evs : List WEv) : WorkerOut :=
    let stderrTxt :=
      if pyLower l.name = "node.js" then
        pyReplace env.runStderr nodeWarning ""
      else env.runStderr
    match parseMetaLegacy env.runMeta with
    | some md =>
      { db := update_submission_result db1 sid .FINISHED
                env.runStdout stderrTxt md,
        trace := evs ++ [WEv.persist, WEv.cleanup],
        ret := .success }
    | none =>
      { db := update_submission_result db1 sid .ERROR
                "" legacyParseErrMsg [("error", "Worker exception")],
        trace := evs ++ [WEv.persist, WEv.cleanup],
        ret := .unexpectedError legacyParseErrMsg }

/-! ## The service-layer processing workflow

`SubmissionProcessingService.process`
(`src/worker/app/services/submission_processing_service.py`, lines 96-216)
and the `SandboxService` pieces it drives.

Two Python-level facts shape this model:

* `SandboxService` defines **no** method `prepare_additional_files`, yet
  `process` calls `self.sandbox_service.prepare_additional_files(...)`
  (line 137) on every run; the attribute lookup raises `AttributeError`,
  which the inner `except ValueError` clause does not catch, so the outer
  `except Exception` handler takes over.  Every path past the source-file
  write therefore ends in the generic exception handler.
* `SubmissionRepository.update_result` takes exactly
  `(submission_id, status, stdout, stderr, meta)`, yet the compile-failure
  persist (lines 161-168) and the success persist (lines 188-195) both pass
  `compile_output=...`; had they been reached, the keyword argument would
  raise `TypeError` before any write. -/

/-- Models `Python str(b)` on a bool: `"True"` / `"False"`. -/
def pyBoolStr (b : Bool) : String := if b then "True" else "False"

/-- Models `number_of_runs = submission_data.get("number_of_runs") or
settings.SANDBOX_NUMBER_OF_RUNS` (`submission_processing_service.py`,
line 111): Python `or` replaces a missing **or zero** value by the default. -/
def resolveNumberOfRuns (sub : SubData) (defaultRuns : Nat) : Nat :=
  match sub.number_of_runs with
  | some n => if n = 0 then defaultRuns else n
  | none => defaultRuns

/-- One `SandboxService.execute` outcome as observed by the caller:
the stdout/stderr texts and the parsed meta dictionary. -/
structure RunResult where
  stdout : String
  stderr : String
  meta : List (String × String)
deriving DecidableEq, Repr

/-- Models `SandboxService.execute` (`sandbox_service.py`, lines 271-359) given the
on-disk outputs of the isolator run: stderr is empty under
`redirect_stderr_to_stdout`, the node.js warning line is stripped when
stderr is separate, and the meta file is parsed first-colon-wise. -/
def sandboxExecute (stdoutTxt stderrTxt metaContents : String)
    (redirect : Bool) (languageName : String) : RunResult :=
  let err :=
    if redirect then ""
    else if pyLower languageName = "node.js" then
      pyReplace stderrTxt nodeWarning ""
    else stderrTxt
  { stdout := stdoutTxt, stderr := err, meta := parseMetaService metaContents }

/-- Models `str(e)` for `float(...)` failing on a non-numeric meta value. -/
def floatValueErrMsg : String := "could not convert string to float"

/-- Models `SubmissionProcessingService._execute_multiple_runs`
(`submission_processing_service.py`, lines 61-94): run `n` times, sum the
per-run `time` and `max-rss` meta values when present and non-empty, keep
the last result, and when `n > 1` write `avg_time`, `avg_memory` and
`total_runs` into the meta of the last result.  An unparsable numeric value
raises `ValueError` (propagated as `Except.error`); `n = 0` returns `none`
(Python `None`). -/
def executeMultipleRuns (results : Nat → RunResult) (n : Nat) :
    Except String (Option RunResult) := do
  let acc ← (List.range n).foldlM
    (fun (acc : ℚ × ℚ × Option RunResult) i => do
      let r := results i
      let tt ←
        match dlookup r.meta "time" with
        | some s =>
            if s = "" then pure acc.1
            else match pyFloat s with
              | some q => pure (acc.1 + q)
              | none => throw floatValueErrMsg
        | none => pure acc.1
      let tm ←
        match dlookup r.meta "max-rss" with
        | some s =>
            if s = "" then pure acc.2.1
            else match pyFloat s with
              | some q => pure (acc.2.1 + q)
              | none => throw floatValueErrMsg
        | none => pure acc.2.1
      pure (tt, tm, some r))
    ((0 : ℚ), (0 : ℚ), (none : Option RunResult))
  match acc.2.2 with
  | some r =>
      if n > 1 then
        let md := dictSet r.meta "avg_time" (pyStr (acc.1 / n))
        let md := dictSet md "avg_memory" (pyStr (acc.2.1 / n))
        let md := dictSet md "total_runs" (toString n)
        pure (some { r with meta := md })
      else pure (some r)
  | none => pure none

/-- The expected-output comparison of `SubmissionProcessingService.process`
(lines 183-186): when `expected_output` is non-null, set
`meta["output_matched"] = str(stdout.strip() == expected.strip())`. -/
def expectedOutputCheck (meta : List (String × String)) (stdout : String)
    (expected : Option String) : List (String × String) :=
  match expected with
  | some e =>
      dictSet meta "output_matched" (pyBoolStr (pyStrip stdout = pyStrip e))
  | none => meta

/-- The effects of one `SubmissionProcessingService.process` run. -/
inductive SEv where
  | updateStatus
  | initBox
  | prepareSource
  | persist
  | cleanup
deriving DecidableEq, Repr

/-- Return values of `SubmissionProcessingService.process`. -/
inductive SRet where
  | invalidData
  | unexpectedError (details : String)
deriving DecidableEq, Repr

/-- Result of one service run: the database after all updates, the emitted
effects, and the return value. -/
structure SvcOut where
  db : List SubRow
  trace : List SEv
  ret : SRet
deriving DecidableEq, Repr

/-- Models `str(e)` for the `RuntimeError` raised by `SandboxService.initialize`
when `isolate --init` exits non-zero. -/
def initFailMsg : String := "Failed to initialize sandbox"

/-- Models `str(e)` for the `AttributeError` raised by the call to the undefined
method `prepare_additional_files` (`submission_processing_service.py`,
line 137; no such method exists in `sandbox_service.py`). -/
def attributeErrMsg : String :=
  "\x27SandboxService\x27 object has no attribute \x27prepare_additional_files\x27"

/-- The environment of one service run: whether `isolate --init` succeeds. -/
structure SvcEnv where
  initOk : Bool := true
deriving Repr

/-- Models `SubmissionProcessingService.process`
(`submission_processing_service.py`, lines 96-216).  After validation the
`try` block runs: status update, sandbox init, source-file write — and then
the call to the missing `prepare_additional_files` method raises
`AttributeError` unconditionally, so every run falls into the generic
exception handler, which persists ERROR with
`meta = {"error": "Worker exception"}`; the `finally` block then performs
the cleanup.  The compile stage, `_execute_multiple_runs`, the
expected-output check and the FINISHED persist (all modelled above as the
stand-alone functions they are in the source) are unreachable from here —
and both terminal persists that would carry `compile_output=` would raise
`TypeError` anyway, `update_result` having no such parameter. -/
def serviceProcess (env : SvcEnv) (sub : SubData) (lang : Option LangData)
    (table : List SubRow) : SvcOut :=
  if ¬ validEnvelope sub lang then
    { db := table, trace := [], ret := .invalidData }
  else
    match sub.id with
    | some sid =>
      let db1 := update_submission_status table sid .PROCESSING
      if ¬ env.initOk then
        -- RuntimeError from initialize, caught by the except handler
        { db := update_submission_result db1 sid .ERROR
                  "" initFailMsg [("error", "Worker exception")],
          trace := [SEv.updateStatus, SEv.persist, SEv.cleanup],
          ret := .unexpectedError initFailMsg }
      else
        -- AttributeError from the missing prepare_additional_files method
        { db := update_submission_result db1 sid .ERROR
                  "" attributeErrMsg [("error", "Worker exception")],
          trace := [SEv.updateStatus, SEv.initBox, SEv.prepareSource,
                    SEv.persist, SEv.cleanup],
          ret := .unexpectedError attributeErrMsg }
    | none => { db := table, trace := [], ret := .invalidData }

/-- Models the predicate of the C6 characterization: a line that contains a
colon and whose first-colon key (after stripping) is `k`. -/
def metaLineFor (k : String) (l : String) : Bool :=
  strContainsChar l ':' && decide ((firstColonSplit (pyStrip l)).1 = k)

/-- Models the value a meta line carries: everything after the first colon
of the stripped line. -/
def metaLineVal (l : String) : String := (firstColonSplit (pyStrip l)).2

/-- A sample submission serialization carrying every known field. -/
def sampleSubmissionData : List (String × String) :=
  ALL_FIELDS.map (fun k => (k, ""))

/-- The key set claim C8 asserts for a projected response, stated from the
words of the claim for comparison with the code: the requested names
intersected with the known names, united with `id`. -/
def specClaimKeys (f : String) : Finset String :=
  (fieldTokens f).toFinset ∩ ALL_FIELDS.toFinset ∪ {"id"}

/-! # Theorems -/

/-- Every worker that receives a syntactically valid job performs a terminal
write and the final cleanup, on every branch of the legacy job function:
there is no abort path after the status update. -/
theorem worker_always_persists_and_cleans (env : WEnv) (sub : SubData)
    (lang : Option LangData) (table : List SubRow)
    (hv : validEnvelope sub lang = true) :
    WEv.persist ∈ (workerProcessSubmission env sub lang table).trace ∧
    WEv.cleanup ∈ (workerProcessSubmission env sub lang table).trace := by
  rcases lang with _ | l
  · simp [validEnvelope] at hv
  rcases hsub : sub.id with _ | sid
  · simp [validEnvelope, hsub] at hv
  simp only [workerProcessSubmission, hsub, if_neg (not_not_intro hv)]
  rcases hcc : l.compile_command with _ | cc
  · simp only [workerProcessSubmission.workerRunStage]
    rcases parseMetaLegacy env.runMeta with _ | md <;> simp
  · by_cases hrc : env.compileReturncode ≠ 0
    · simp only [if_pos hrc]
      rcases parseMetaLegacy env.compileMeta with _ | md <;> simp
    · simp only [if_neg hrc, workerProcessSubmission.workerRunStage]
      rcases parseMetaLegacy env.runMeta with _ | md <;> simp

/-- Claim C1 (counterexample): The claim asserts the PENDING→PROCESSING update
is guarded by `status = PENDING` and that a worker whose update matches no
row aborts.  Neither holds: `update_submission_status` matches on id alone,
so it transitions a row that is already FINISHED back to PROCESSING; and a
worker receiving a job whose row is already PROCESSING (claimed by another
worker) still proceeds all the way to its own terminal write. -/
theorem C1_counterexample :
    (update_submission_status
        [{ id := 1, source_code := "s", language_id := 1, stdin := none,
           stdout := none, stderr := none, status := .FINISHED, meta := none }]
        1 .PROCESSING =
      [{ id := 1, source_code := "s", language_id := 1, stdin := none,
         stdout := none, stderr := none, status := .PROCESSING,
         meta := none }]) ∧
    (workerProcessSubmission { runMeta := "time:0.1\nexitcode:0" }
        { id := some 1, source_code := some "print(1)" }
        (some { name := "Python", file_name := "main", file_extension := ".py",
                compile_command := none,
                run_command := "/usr/bin/python3 main.py" })
        [{ id := 1, source_code := "print(1)", language_id := 1,
           stdin := some "", stdout := none, stderr := none,
           status := .PROCESSING, meta := none }] =
      { db := [{ id := 1, source_code := "print(1)", language_id := 1,
                 stdin := some "", stdout := some "", stderr := some "",
                 status := .FINISHED,
                 meta := some [("time", "0.1"), ("exitcode", "0")] }],
        trace := [.updateStatus, .initBox, .execRun, .persist, .cleanup],
        ret := .success }) := by
  decide

/-- Claim C1 (amended): The PENDING→PROCESSING transition is an unconditional
UPDATE whose WHERE clause tests the submission id only: every row with the
id of the job is set to the new status regardless of its current status, and a
worker receiving the job proceeds to produce a terminal write on every
branch — so two workers receiving the same job both proceed. -/
theorem C1_amended (table : List SubRow) (sid : Nat) (st : SubmissionStatus)
    (r : SubRow) (hmem : r ∈ table) (hid : r.id = sid)
    (env : WEnv) (sub : SubData) (lang : Option LangData) (t2 : List SubRow)
    (hv : validEnvelope sub lang = true) :
    { r with status := st } ∈ update_submission_status table sid st ∧
    WEv.persist ∈ (workerProcessSubmission env sub lang t2).trace := by
  constructor
  · have h1 := List.mem_map_of_mem
      (fun r : SubRow => if r.id = sid then { r with status := st } else r) hmem
    simpa [update_submission_status, hid] using h1
  · exact (worker_always_persists_and_cleans env sub lang t2 hv).1

/-- Witness for `C1_amended` at a concrete table (holding a FINISHED row)
and a concrete valid job. -/
theorem C1_amended_witness :
    { id := 1, source_code := "s", language_id := 1, stdin := none,
      stdout := none, stderr := none, status := .PROCESSING,
      meta := none : SubRow } ∈ update_submission_status
        [{ id := 1, source_code := "s", language_id := 1, stdin := none,
           stdout := none, stderr := none, status := .FINISHED,
           meta := none }] 1 .PROCESSING ∧
    WEv.persist ∈ (workerProcessSubmission {}
        { id := some 1, source_code := some "print(1)" }
        (some { name := "Python", file_name := "main", file_extension := ".py",
                compile_command := none,
                run_command := "/usr/bin/python3 main.py" }) []).trace :=
  C1_amended
    [{ id := 1, source_code := "s", language_id := 1, stdin := none,
       stdout := none, stderr := none, status := .FINISHED, meta := none }]
    1 .PROCESSING
    { id := 1, source_code := "s", language_id := 1, stdin := none,
      stdout := none, stderr := none, status := .FINISHED, meta := none }
    (List.mem_singleton.mpr rfl) rfl
    {} { id := some 1, source_code := some "print(1)" }
    (some { name := "Python", file_name := "main", file_extension := ".py",
            compile_command := none,
            run_command := "/usr/bin/python3 main.py" }) []
    (by decide)

/-- Claim C2 (code evaluation at the failing input):  A C submission whose
compile step exits with status 1.  The legacy job function persists ERROR
with the compile streams and meta through `update_submission_result`, whose
parameter list — like the worker `Submission` model — has no
`compile_output` at all, so no ERROR row can ever carry a non-null
`compile_output`; and the service-layer `process` on the same job never even
reaches its compile stage: it dies on the missing `prepare_additional_files`
method and persists the infra-failure signature
`meta = {"error": "Worker exception"}` instead. -/
theorem C2_code_eval :
    (workerProcessSubmission
        { compileReturncode := 1, compileStdout := "",
          compileStderr := "error: expected expression",
          compileMeta := "status:RE\nexitcode:1" }
        { id := some 1, source_code := some "int main()" }
        (some { name := "C", file_name := "main", file_extension := ".c",
                compile_command := some "/usr/bin/gcc main.c",
                run_command := "./a.out" })
        [{ id := 1, source_code := "int main()", language_id := 1,
           stdin := some "", stdout := none, stderr := none,
           status := .PENDING, meta := none }] =
      { db := [{ id := 1, source_code := "int main()", language_id := 1,
                 stdin := some "", stdout := some "",
                 stderr := some "error: expected expression",
                 status := .ERROR,
                 meta := some [("status", "RE"), ("exitcode", "1")] }],
        trace := [.updateStatus, .initBox, .compileRun, .persist, .cleanup],
        ret := .compileError }) ∧
    (serviceProcess { initOk := true }
        { id := some 1, source_code := some "int main()" }
        (some { name := "C", file_name := "main", file_extension := ".c",
                compile_command := some "/usr/bin/gcc main.c",
                run_command := "./a.out" })
        [{ id := 1, source_code := "int main()", language_id := 1,
           stdin := some "", stdout := none, stderr := none,
           status := .PENDING, meta := none }] =
      { db := [{ id := 1, source_code := "int main()", language_id := 1,
                 stdin := some "", stdout := some "",
                 stderr := some attributeErrMsg,
                 status := .ERROR,
                 meta := some [("error", "Worker exception")] }],
        trace := [.updateStatus, .initBox, .prepareSource, .persist,
                  .cleanup],
        ret := .unexpectedError attributeErrMsg }) := by
  decide

/-- Claim C3 (code evaluation at the failing input):  A submission with
`expected_output = "hi"` whose program prints `hi`.  The legacy job function
— the one the queue targets — completes FINISHED but never consults
`expected_output`: the persisted meta has no `output_matched` key.  The
service-layer `process` (which contains the comparison, lines 183-186)
persists ERROR with `meta = {"error": "Worker exception"}` instead, because
it crashes before execution on the missing `prepare_additional_files`
method.  The comparison itself, taken in isolation, does compute
`str(trim(stdout) == trim(expected))` exactly as claimed. -/
theorem C3_code_eval :
    (workerProcessSubmission
        { runStdout := "hi\n", runStderr := "",
          runMeta := "time:0.001\nexitcode:0" }
        { id := some 2, source_code := some "print(\x22hi\x22)",
          expected_output := some "hi" }
        (some { name := "Python", file_name := "main", file_extension := ".py",
                compile_command := none,
                run_command := "/usr/bin/python3 main.py" })
        [{ id := 2, source_code := "print(\x22hi\x22)", language_id := 2,
           stdin := some "", stdout := none, stderr := none,
           status := .PENDING, meta := none }] =
      { db := [{ id := 2, source_code := "print(\x22hi\x22)", language_id := 2,
                 stdin := some "", stdout := some "hi\n", stderr := some "",
                 status := .FINISHED,
                 meta := some [("time", "0.001"), ("exitcode", "0")] }],
        trace := [.updateStatus, .initBox, .execRun, .persist, .cleanup],
        ret := .success }) ∧
    dlookup [("time", "0.001"), ("exitcode", "0")] "output_matched" = none ∧
    (serviceProcess { initOk := true }
        { id := some 2, source_code := some "print(\x22hi\x22)",
          expected_output := some "hi" }
        (some { name := "Python", file_name := "main", file_extension := ".py",
                compile_command := none,
                run_command := "/usr/bin/python3 main.py" })
        [{ id := 2, source_code := "print(\x22hi\x22)", language_id := 2,
           stdin := some "", stdout := none, stderr := none,
           status := .PENDING, meta := none }]).db.map
      (fun r => (r.status, r.meta)) =
      [(.ERROR, some [("error", "Worker exception")])] ∧
    expectedOutputCheck [("time", "0.001")] "hi\n" (some "hi") =
      [("time", "0.001"), ("output_matched", "True")] := by
  decide

/-- Claim C4 (code evaluation at the failing input):  A submission with
`number_of_runs = 3`.  The legacy job function — the one the queue targets —
runs the program exactly once and persists a meta without `total_runs`,
`avg_time` or `avg_memory`; the service-layer `process` persists ERROR
before ever executing.  `_execute_multiple_runs` itself, taken in isolation,
does compute the claimed values: over two runs with times 1.0 and 3.0 and
max-rss 100.0 and 300.0 it keeps the stdout, stderr and meta of the last run and adds
`avg_time = "2.0"`, `avg_memory = "200.0"`, `total_runs = "2"`. -/
theorem C4_code_eval :
    (workerProcessSubmission
        { runStdout := "7\n", runStderr := "",
          runMeta := "time:0.5\nexitcode:0" }
        { id := some 3, source_code := some "print(7)",
          number_of_runs := some 3 }
        (some { name := "Python", file_name := "main", file_extension := ".py",
                compile_command := none,
                run_command := "/usr/bin/python3 main.py" })
        [{ id := 3, source_code := "print(7)", language_id := 2,
           stdin := some "", stdout := none, stderr := none,
           status := .PENDING, meta := none }] =
      { db := [{ id := 3, source_code := "print(7)", language_id := 2,
                 stdin := some "", stdout := some "7\n", stderr := some "",
                 status := .FINISHED,
                 meta := some [("time", "0.5"), ("exitcode", "0")] }],
        trace := [.updateStatus, .initBox, .execRun, .persist, .cleanup],
        ret := .success }) ∧
    dlookup [("time", "0.5"), ("exitcode", "0")] "total_runs" = none ∧
    dlookup [("time", "0.5"), ("exitcode", "0")] "avg_time" = none ∧
    (serviceProcess { initOk := true }
        { id := some 3, source_code := some "print(7)",
          number_of_runs := some 3 }
        (some { name := "Python", file_name := "main", file_extension := ".py",
                compile_command := none,
                run_command := "/usr/bin/python3 main.py" })
        [{ id := 3, source_code := "print(7)", language_id := 2,
           stdin := some "", stdout := none, stderr := none,
           status := .PENDING, meta := none }]).db.map
      (fun r => (r.status, r.meta)) =
      [(.ERROR, some [("error", "Worker exception")])] ∧
    executeMultipleRuns
      (fun i => if i = 0
        then ⟨"ok\n", "", [("time", "1.0"), ("max-rss", "100.0")]⟩
        else ⟨"ok\n", "", [("time", "3.0"), ("max-rss", "300.0")]⟩) 2 =
      .ok (some ⟨"ok\n", "",
        [("time", "3.0"), ("max-rss", "300.0"), ("avg_time", "2.0"),
         ("avg_memory", "200.0"), ("total_runs", "2")]⟩) := by
  decide

/-- The filesystem scan of `get_available_box_id` always yields an id below
1000: the loop runs over `range(1000)` and the random fallback draws from
`randint(0, 999)`. -/
theorem get_available_box_id_lt (env : BoxScanEnv) :
    get_available_box_id env < 1000 := by
  unfold get_available_box_id
  dsimp only
  split
  · rename_i h
    exact List.mem_range.mp (List.mem_of_find?_eq_some h)
  · exact env.randomDraw.isLt

/-- Claim C5 (counterexample): The claim asserts the chosen box id always lies
in `[0, 999]`.  But the `worker-<N>` source is not range-checked: a worker
named `worker-1000` is assigned box id 1000. -/
theorem C5_counterexample :
    determine_box_id none "worker-1000" ⟨true, [], (0 : Fin 1000)⟩ = 1000 ∧
    ¬ ((1000 : Int) ≤ 999) := by
  decide

/-- Claim C5 (amended): Priority and determinism are as claimed — an
explicitly assigned id wins, else `worker-<N>` yields `N`, else the
filesystem scan — and the id is guaranteed to lie in `[0, 999]` only in the
scan/random case; the `worker-<N>` id is used unchecked.  The service's
`initialize` passes the determined id as `--box-id=<id>`, while the legacy
init command of the legacy job function carries no `--box-id` argument at all. -/
theorem C5_amended (assigned : Option Int) (workerName : String)
    (env : BoxScanEnv) (n b : Int) :
    (assigned = some b → determine_box_id assigned workerName env = b) ∧
    (assigned = none → get_box_id_from_worker_name workerName = some n →
      determine_box_id assigned workerName env = n) ∧
    (assigned = none → get_box_id_from_worker_name workerName = none →
      0 ≤ determine_box_id assigned workerName env ∧
      determine_box_id assigned workerName env ≤ 999) ∧
    ("--box-id=" ++ toString (determine_box_id assigned workerName env)) ∈
      serviceInitCmd "/usr/local/bin/isolate" assigned workerName env ∧
    (∀ s ∈ legacyInitCmd, pyStartsWith s "--box-id=" = false) ∧
    get_box_id_from_worker_name "worker-7" = some 7 := by
  refine ⟨?_, ?_, ?_, ?_, ?_, ?_⟩
  · rintro rfl
    rfl
  · rintro rfl hname
    simp [determine_box_id, hname]
  · rintro rfl hname
    simp only [determine_box_id, hname]
    have h := get_available_box_id_lt env
    constructor
    · exact Int.ofNat_nonneg _
    · exact_mod_cast Nat.lt_succ_iff.mp (by exact_mod_cast h)
  · simp [serviceInitCmd]
  · decide
  · decide

/-- Witness for `C5_amended`: a worker named `worker-7` with no assigned id
receives box id 7. -/
theorem C5_amended_witness :
    determine_box_id none "worker-7" ⟨true, [], (0 : Fin 1000)⟩ = 7 :=
  (C5_amended none "worker-7" ⟨true, [], (0 : Fin 1000)⟩ 7 0).2.1 rfl
    (by decide)

/-- Looking a key up after a dictionary assignment: the assigned key maps to
the new value, every other key is untouched. -/
theorem dlookup_dictSet (m : List (String × String)) (k v k' : String) :
    dlookup (dictSet m k v) k' = if k' = k then some v else dlookup m k' := by
  induction m with
  | nil =>
      by_cases h : k' = k
      · subst h; simp [dictSet, dlookup]
      · simp [dictSet, dlookup, h, Ne.symm h]
  | cons p rest ih =>
      by_cases hpk : p.1 = k <;> by_cases h : k' = k
      · subst h
        simp [dictSet, dlookup, hpk]
      · have hp' : ¬ p.1 = k' := by rw [hpk]; exact Ne.symm h
        simp [dictSet, dlookup, hpk, h, Ne.symm h, hp']
      · subst h
        simp [dictSet, dlookup, hpk, ih]
      · simp [dictSet, dlookup, hpk, h, ih]

/-- Folding the service parser loop body over a list of lines: the lookup
of `k` is the value of the last line for `k`, else whatever the accumulator
held. -/
theorem dlookup_foldl_parseMetaStep (lines : List String)
    (acc : List (String × String)) (k : String) :
    dlookup (lines.foldl parseMetaStep acc) k =
      match ((lines.filter (metaLineFor k)).reverse.head?) with
      | some l => some (metaLineVal l)
      | none => dlookup acc k := by
  induction lines generalizing acc with
  | nil => simp
  | cons l ls ih =>
      rw [List.foldl_cons, ih (parseMetaStep acc l), List.filter_cons]
      by_cases hcf : metaLineFor k l = true
      · rw [if_pos hcf]
        have hcol : strContainsChar l ':' = true := by
          have h := hcf
          simp only [metaLineFor, Bool.and_eq_true, decide_eq_true_eq] at h
          exact h.1
        have hkey : (firstColonSplit (pyStrip l)).1 = k := by
          have h := hcf
          simp only [metaLineFor, Bool.and_eq_true, decide_eq_true_eq] at h
          exact h.2
        rcases hrev : (ls.filter (metaLineFor k)).reverse with _ | ⟨x, xs⟩
        · rw [List.reverse_cons, hrev]
          simp only [List.nil_append, List.head?_cons, List.head?_nil]
          rw [show parseMetaStep acc l =
                dictSet acc (firstColonSplit (pyStrip l)).1
                  (firstColonSplit (pyStrip l)).2 by
              simp [parseMetaStep, hcol]]
          rw [dlookup_dictSet, hkey, if_pos rfl, metaLineVal]
        · rw [List.reverse_cons, hrev]
          simp only [List.cons_append, List.head?_cons]
      · rw [if_neg hcf]
        rcases hrest : (ls.filter (metaLineFor k)).reverse.head? with _ | x
        · simp only [hrest]
          by_cases hcol : strContainsChar l ':' = true
          · have hkey : ¬ ((firstColonSplit (pyStrip l)).1 = k) := by
              intro hk
              exact hcf (by simp [metaLineFor, hcol, hk])
            rw [show parseMetaStep acc l =
                  dictSet acc (firstColonSplit (pyStrip l)).1
                    (firstColonSplit (pyStrip l)).2 by
                simp [parseMetaStep, hcol]]
            rw [dlookup_dictSet, if_neg (fun h => hkey h.symm)]
          · rw [show parseMetaStep acc l = acc by simp [parseMetaStep, hcol]]
        · simp only [hrest]

/-- Claim C6 (counterexample): The claim asserts that parsing maps each line
with a colon to a pair split at the first colon, values being free to
contain further colons.  The legacy parser of `worker.py` (the function the
queue targets) instead splits at **every** colon and raises `ValueError` on
the line `message:Time limit: wall`; the service parser handles it as the
claim describes. -/
theorem C6_counterexample :
    parseMetaLegacy "time:0.1\nstatus:TO\nmessage:Time limit: wall" = none ∧
    parseMetaService "time:0.1\nstatus:TO\nmessage:Time limit: wall" =
      [("time", "0.1"), ("status", "TO"), ("message", "Time limit: wall")] := by
  decide

/-- Claim C6 (amended): The sandbox-service parser satisfies the claim: for
every meta-file content and every key, the parsed value of the key is the
after-first-colon part of the **last** line whose colon-split key matches —
so values may contain colons, unknown keys are preserved verbatim, and
duplicate keys resolve to the last occurrence.  (The legacy `worker.py`
parser, by contrast, splits at every colon; see the counterexample.) -/
theorem C6_amended (contents : String) (k : String) :
    dlookup (parseMetaService contents) k =
      (((pySplit (pyStrip contents) '\n').filter
          (metaLineFor k)).reverse.head?).map metaLineVal := by
  rw [parseMetaService, dlookup_foldl_parseMetaStep]
  rcases h : ((pySplit (pyStrip contents) '\n').filter
      (metaLineFor k)).reverse.head? with _ | x <;> simp [h, dlookup]

/-- Decoding inverts the 6-bit alphabet encoding. -/
theorem b64Index_b64Ch : ∀ v, v < 64 → b64Index (b64Ch v) = some v := by
  decide

/-- No alphabet character is the padding character. -/
theorem b64Ch_ne_pad : ∀ v, v < 64 → b64Ch v ≠ '=' := by decide

/-- The core round trip: decoding the base64 encoding of any byte sequence
recovers the bytes. -/
theorem b64DecodeChars_b64EncodeBytes :
    ∀ (x : List Nat), (∀ b ∈ x, b < 256) →
      b64DecodeChars (b64EncodeBytes x) = some x
  | [], _ => rfl
  | [a], h => by
      have ha : a < 256 := h a (by simp)
      have h1 : a / 4 < 64 := by omega
      have h2 : a % 4 * 16 < 64 := by omega
      have e1 : a / 4 * 4 + a % 4 * 16 / 16 = a := by omega
      simp [b64EncodeBytes, b64DecodeChars,
        b64Index_b64Ch _ h1, b64Index_b64Ch _ h2, e1]
      all_goals omega
  | [a, b], h => by
      have ha : a < 256 := h a (by simp)
      have hb : b < 256 := h b (by simp)
      have h1 : a / 4 < 64 := by omega
      have h2 : a % 4 * 16 + b / 16 < 64 := by omega
      have h3 : b % 16 * 4 < 64 := by omega
      have e1 : a / 4 * 4 + (a % 4 * 16 + b / 16) / 16 = a := by omega
      have e2 : (a % 4 * 16 + b / 16) % 16 * 16 + b % 16 * 4 / 4 = b := by
        omega
      simp [b64EncodeBytes, b64DecodeChars,
        b64Index_b64Ch _ h1, b64Index_b64Ch _ h2, b64Index_b64Ch _ h3,
        b64Ch_ne_pad _ h3, e1, e2]
      all_goals omega
  | a :: b :: c :: rest, h => by
      have ha : a < 256 := h a (by simp)
      have hb : b < 256 := h b (by simp)
      have hc : c < 256 := h c (by simp)
      have hrest : ∀ y ∈ rest, y < 256 := fun y hy => h y (by simp [hy])
      have h1 : a / 4 < 64 := by omega
      have h2 : a % 4 * 16 + b / 16 < 64 := by omega
      have h3 : b % 16 * 4 + c / 64 < 64 := by omega
      have h4 : c % 64 < 64 := by omega
      have ih := b64DecodeChars_b64EncodeBytes rest hrest
      have e1 : a / 4 * 4 + (a % 4 * 16 + b / 16) / 16 = a := by omega
      have e2 : (a % 4 * 16 + b / 16) % 16 * 16 + (b % 16 * 4 + c / 64) / 4
          = b := by omega
      have e3 : (b % 16 * 4 + c / 64) % 4 * 64 + c % 64 = c := by omega
      simp [b64EncodeBytes, b64DecodeChars,
        b64Index_b64Ch _ h1, b64Index_b64Ch _ h2, b64Index_b64Ch _ h3,
        b64Index_b64Ch _ h4, b64Ch_ne_pad _ h3, b64Ch_ne_pad _ h4, ih,
        e1, e2, e3]

/-- The encoding of a non-empty byte sequence is non-empty. -/
theorem b64EncodeBytes_ne_nil (x : List Nat) (hx : x ≠ []) :
    b64EncodeBytes x ≠ [] := by
  match x with
  | [] => exact absurd rfl hx
  | [a] => simp [b64EncodeBytes]
  | [a, b] => simp [b64EncodeBytes]
  | a :: b :: c :: rest => simp [b64EncodeBytes]

/-- Claim C7: The base64 transport codec round-trips: decoding the encoding of
any byte sequence yields it back, `None` stays `None` under both optional
operations, and the empty string encodes to the empty string. -/
theorem C7_roundtrip (x : List Nat) (h : ∀ b ∈ x, b < 256) :
    Base64Encoder.decode (Base64Encoder.encode x) = .ok x ∧
    Base64Encoder.encode_optional none = none ∧
    Base64Encoder.decode_optional none = .ok none ∧
    Base64Encoder.encode [] = [] := by
  refine ⟨?_, rfl, rfl, rfl⟩
  by_cases hx : x = []
  · subst hx
    rfl
  · rw [Base64Encoder.encode, if_neg hx, Base64Encoder.decode,
      if_neg (b64EncodeBytes_ne_nil x hx),
      b64DecodeChars_b64EncodeBytes x h]

/-- Witness for `C7_roundtrip` on the bytes of `"hi"`. -/
theorem C7_roundtrip_witness :
    (∀ b ∈ [104, 105], b < 256) ∧
    Base64Encoder.decode (Base64Encoder.encode [104, 105]) = .ok [104, 105] :=
  ⟨by decide, (C7_roundtrip [104, 105] (by decide)).1⟩

/-- Boolean set membership agrees with list membership. -/
theorem smem_iff (x : String) (l : List String) : smem x l = true ↔ x ∈ l := by
  simp [smem, List.any_eq_true]

/-- Membership after a set insertion. -/
theorem mem_sInsert (y x : String) (l : List String) :
    y ∈ sInsert l x ↔ y ∈ l ∨ y = x := by
  unfold sInsert
  by_cases h : smem x l = true
  · rw [if_pos h, smem_iff] at *
    constructor
    · exact Or.inl
    · rintro (hy | rfl)
      · exact hy
      · exact h
  · rw [if_neg (by simp [h])]
    simp

/-- Membership after folding set insertion over a list. -/
theorem mem_foldl_sInsert (l : List String) (acc : List String) (y : String) :
    y ∈ l.foldl sInsert acc ↔ y ∈ acc ∨ y ∈ l := by
  induction l generalizing acc with
  | nil => simp
  | cons x xs ih =>
      rw [List.foldl_cons, ih (sInsert acc x)]
      rw [mem_sInsert]
      simp only [List.mem_cons]
      tauto

/-- Projecting keys commutes with filtering rows on a key predicate. -/
theorem map_fst_filter (data : List (String × String)) (p : String → Bool) :
    (data.filter (fun kv => p kv.1)).map Prod.fst =
      (data.map Prod.fst).filter p := by
  induction data with
  | nil => rfl
  | cons kv rest ih => by_cases h : p kv.1 <;> simp [h, ih]

/-- Claim C8 (counterexample): The claim quantifies over every `fields` query
string, but the token `all` — which the code expands to every known field —
produces keys different from the claimed `requested ∩ known ∪ {id}`, which
at `"all"` is just `{id}`. -/
theorem C8_counterexample :
    (filter_data sampleSubmissionData (parse_fields (some "all"))).map
        Prod.fst = ALL_FIELDS ∧
    specClaimKeys "all" = {"id"} ∧
    ¬ (ALL_FIELDS.toFinset = specClaimKeys "all") := by
  decide

/-- Claim C8 (amended): For a submission record carrying exactly the known
fields: when `fields` is unset or blank the projected keys are exactly the
default set; the token `all` (case-insensitive, the case the claim omits)
yields every known field; otherwise, without the `default` token the keys
are exactly `requested ∩ known ∪ {id}`, and with it they are exactly
`default_set ∪ (requested ∩ known)` — unknown names silently dropped in
both cases. -/
theorem C8_amended (fields : Option String) (data : List (String × String))
    (hkeys : data.map Prod.fst = ALL_FIELDS) :
    (fields = none →
      ((filter_data data (parse_fields fields)).map Prod.fst).toFinset =
        DEFAULT_FIELDS.toFinset) ∧
    (∀ f, fields = some f → pyStrip f = "" →
      ((filter_data data (parse_fields fields)).map Prod.fst).toFinset =
        DEFAULT_FIELDS.toFinset) ∧
    (∀ f, fields = some f → pyLower (pyStrip f) = "all" →
      ((filter_data data (parse_fields fields)).map Prod.fst).toFinset =
        ALL_FIELDS.toFinset) ∧
    (∀ f, fields = some f → pyStrip f ≠ "" → pyLower (pyStrip f) ≠ "all" →
      smem "default" (fieldTokens f) = false →
      ((filter_data data (parse_fields fields)).map Prod.fst).toFinset =
        (fieldTokens f).toFinset ∩ ALL_FIELDS.toFinset ∪ {"id"}) ∧
    (∀ f, fields = some f → pyStrip f ≠ "" → pyLower (pyStrip f) ≠ "all" →
      smem "default" (fieldTokens f) = true →
      ((filter_data data (parse_fields fields)).map Prod.fst).toFinset =
        DEFAULT_FIELDS.toFinset ∪
          ((fieldTokens f).toFinset ∩ ALL_FIELDS.toFinset)) := by
  have hsub : ∀ x ∈ DEFAULT_FIELDS, x ∈ ALL_FIELDS := by decide
  have hid : "id" ∈ ALL_FIELDS := by decide
  have hiddef : "id" ∈ DEFAULT_FIELDS := by decide
  have hdef : "default" ∉ ALL_FIELDS := by decide
  have hkeysOf : ∀ fs : List String,
      ((filter_data data (some fs)).map Prod.fst).toFinset =
        (ALL_FIELDS.filter (fun k => smem k fs)).toFinset := by
    intro fs
    rw [filter_data, Option.getD, map_fst_filter data (fun k => smem k fs),
      hkeys]
  have hkeysNone :
      ((filter_data data none).map Prod.fst).toFinset =
        (ALL_FIELDS.filter (fun k => smem k DEFAULT_FIELDS)).toFinset := by
    rw [filter_data, Option.getD,
      map_fst_filter data (fun k => smem k DEFAULT_FIELDS), hkeys]
  have hdefkeys :
      (ALL_FIELDS.filter (fun k => smem k DEFAULT_FIELDS)).toFinset =
        DEFAULT_FIELDS.toFinset := by
    ext x
    simp only [List.mem_toFinset, List.mem_filter, smem_iff]
    exact ⟨fun h => h.2, fun h => ⟨hsub x h, h⟩⟩
  refine ⟨?_, ?_, ?_, ?_, ?_⟩
  · rintro rfl
    rw [show parse_fields none = none from rfl, hkeysNone, hdefkeys]
  · rintro f rfl hblank
    rw [parse_fields, if_pos (Or.inr hblank), hkeysNone, hdefkeys]
  · rintro f rfl hall
    have hblank : ¬ (f = "" ∨ pyStrip f = "") := by
      rintro (rfl | hb)
      · exact absurd hall (by decide)
      · rw [hb] at hall
        exact absurd hall (by decide)
    rw [parse_fields, if_neg hblank, if_pos hall, hkeysOf]
    ext x
    simp only [List.mem_toFinset, List.mem_filter, smem_iff]
    tauto
  · rintro f rfl hne hnall hnd
    have hblank : ¬ (f = "" ∨ pyStrip f = "") := by
      rintro (rfl | hb)
      · exact hne rfl
      · exact hne hb
    have hvalid : "id" ∈ (sInsert (fieldTokens f) "id").filter
        (fun x => smem x ALL_FIELDS) := by
      rw [List.mem_filter, mem_sInsert, smem_iff]
      exact ⟨Or.inr rfl, hid⟩
    rw [parse_fields, if_neg hblank, if_neg hnall]
    simp only [hnd, Bool.false_eq_true, if_false]
    rw [if_neg (List.ne_nil_of_mem hvalid), hkeysOf]
    ext x
    have hx1 := hid
    simp only [List.mem_toFinset, List.mem_filter, smem_iff, mem_sInsert,
      Finset.mem_union, Finset.mem_inter, Finset.mem_singleton,
      List.mem_toFinset]
    constructor
    · tauto
    · rintro (⟨hxreq, hxall⟩ | rfl) <;> tauto
  · rintro f rfl hne hnall hd
    have hblank : ¬ (f = "" ∨ pyStrip f = "") := by
      rintro (rfl | hb)
      · exact hne rfl
      · exact hne hb
    have hvalid : "id" ∈ (((fieldTokens f).filter
          (fun t => t ≠ "default")).foldl sInsert DEFAULT_FIELDS).filter
          (fun x => smem x ALL_FIELDS) := by
      simp only [List.mem_filter, mem_foldl_sInsert, smem_iff]
      exact ⟨Or.inl hiddef, hid⟩
    rw [parse_fields, if_neg hblank, if_neg hnall]
    simp only [hd, if_true]
    rw [if_neg (List.ne_nil_of_mem hvalid), hkeysOf]
    ext x
    have hx1 := hsub x
    have hx2 : x = "default" → x ∉ ALL_FIELDS := fun hx => hx ▸ hdef
    simp only [List.mem_toFinset, List.mem_filter, smem_iff,
      mem_foldl_sInsert, Finset.mem_union, Finset.mem_inter,
      List.mem_toFinset, decide_eq_true_eq]
    constructor
    · tauto
    · intro hx
      rcases hx with hxd | ⟨hxreq, hxall⟩
      · exact ⟨hx1 hxd, Or.inl hxd, hx1 hxd⟩
      · exact ⟨hxall, Or.inr ⟨hxreq, fun hxis => hx2 hxis hxall⟩, hxall⟩

/-- Witness for `C8_amended`: requesting `stdout,bogus` on a full record
projects exactly `{stdout} ∩ known ∪ {id}` — the unknown name is dropped. -/
theorem C8_amended_witness :
    ((filter_data sampleSubmissionData
        (parse_fields (some "stdout,bogus"))).map Prod.fst).toFinset =
      (fieldTokens "stdout,bogus").toFinset ∩ ALL_FIELDS.toFinset ∪
        {"id"} :=
  (C8_amended (some "stdout,bogus") sampleSubmissionData
    (by decide)).2.2.2.1 "stdout,bogus" rfl (by decide) (by decide)
    (by decide)

/-- Claim C9 (counterexample): The claim asserts cleanup is invoked on every
exit path of processing a submission job.  On the invalid-envelope path
(missing id) both the service workflow and the legacy job function return
before entering their try/finally blocks: no cleanup (indeed no effect at
all) is performed. -/
theorem C9_counterexample :
    (serviceProcess { initOk := true } { id := none }
        (some { name := "Python", file_name := "main", file_extension := ".py",
                compile_command := none,
                run_command := "/usr/bin/python3 main.py" }) []).trace = [] ∧
    SEv.cleanup ∉ (serviceProcess { initOk := true } { id := none }
        (some { name := "Python", file_name := "main", file_extension := ".py",
                compile_command := none,
                run_command := "/usr/bin/python3 main.py" }) []).trace ∧
    WEv.cleanup ∉ (workerProcessSubmission {} { id := none }
        (some { name := "Python", file_name := "main", file_extension := ".py",
                compile_command := none,
                run_command := "/usr/bin/python3 main.py" }) []).trace := by
  decide

/-- Claim C9 (amended): On every exit path that enters the processing
workflow — i.e. for every job that passes envelope validation — the sandbox
cleanup is invoked, exceptions included: in the service workflow it is the
last effect of every path, and the legacy job function likewise always
reaches its cleanup.  Only the invalid-envelope path returns without
cleanup, and no box has been allocated there. -/
theorem C9_amended (senv : SvcEnv) (wenv : WEnv) (sub : SubData)
    (lang : Option LangData) (t1 t2 : List SubRow)
    (hv : validEnvelope sub lang = true) :
    SEv.cleanup ∈ (serviceProcess senv sub lang t1).trace ∧
    (serviceProcess senv sub lang t1).trace.getLast? = some SEv.cleanup ∧
    WEv.cleanup ∈ (workerProcessSubmission wenv sub lang t2).trace := by
  rcases lang with _ | l
  · simp [validEnvelope] at hv
  rcases hsub : sub.id with _ | sid
  · simp [validEnvelope, hsub] at hv
  refine ⟨?_, ?_,
    (worker_always_persists_and_cleans wenv sub (some l) t2 hv).2⟩ <;>
  · simp only [serviceProcess, hsub, if_neg (not_not_intro hv)]
    rcases senv with ⟨io⟩
    cases io <;> simp

/-- Witness for `C9_amended` at a concrete valid job. -/
theorem C9_amended_witness :
    SEv.cleanup ∈ (serviceProcess { initOk := true }
        { id := some 1, source_code := some "print(1)" }
        (some { name := "Python", file_name := "main", file_extension := ".py",
                compile_command := none,
                run_command := "/usr/bin/python3 main.py" }) []).trace :=
  (C9_amended { initOk := true } {}
    { id := some 1, source_code := some "print(1)" }
    (some { name := "Python", file_name := "main", file_extension := ".py",
            compile_command := none,
            run_command := "/usr/bin/python3 main.py" }) [] []
    (by decide)).1

/-- The minimum of a list of positive rationals, as folded by
`oldestScore`, is positive. -/
theorem foldl_min_pos (t : List ℚ) :
    ∀ h : ℚ, 0 < h → (∀ x ∈ t, 0 < x) → 0 < t.foldl min h := by
  induction t with
  | nil => intro h hh _; simpa using hh
  | cons x xs ih =>
      intro h hh hx
      rw [List.foldl_cons]
      exact ih (min h x) (lt_min hh (hx x (by simp)))
        (fun y hy => hx y (by simp [hy]))

/-- Claim C10: Every sliding-window check records the current timestamp in
the sorted set whether the request is allowed or denied, so a denied request
also consumes capacity: the set is left as the pruned window plus the new
timestamp, the cardinality restricted to the trailing window grows by
exactly one, and on denial the reported reset is the oldest surviving
entry — denied attempts included — plus the window. -/
theorem C10_sliding (s : List ℚ) (now : ℚ) (limit window : Int)
    (hw : 0 < window) (hnow : 0 < now) (hfresh : now ∉ s)
    (hpos : ∀ t ∈ s, 0 < t) :
    (checkSlidingWindow s now limit window).state =
        zremTo s (now - window) ++ [now] ∧
    ((checkSlidingWindow s now limit window).state.filter
        (fun t => now - window < t)).length =
      (s.filter (fun t => now - window < t)).length + 1 ∧
    ((checkSlidingWindow s now limit window).allowed = false →
      (checkSlidingWindow s now limit window).info.reset =
        ⌊oldestScore ((checkSlidingWindow s now limit window).state) +
          window⌋) := by
  have hwq : (0 : ℚ) < (window : ℚ) := by exact_mod_cast hw
  have hprunedsub : ∀ t ∈ zremTo s (now - window), t ∈ s := by
    intro t ht
    exact (List.mem_filter.mp ht).1
  have hfresh' : now ∉ zremTo s (now - window) := fun h =>
    hfresh (hprunedsub now h)
  have hstate : (checkSlidingWindow s now limit window).state =
      zremTo s (now - window) ++ [now] := by
    simp only [checkSlidingWindow, zaddScore]
    rw [if_neg hfresh']
  have hprunedpos : ∀ t ∈ zremTo s (now - window), 0 < t := fun t ht =>
    hpos t (hprunedsub t ht)
  have hkeep : ∀ t ∈ zremTo s (now - window),
      (decide (now - window < t)) = true := by
    intro t ht
    have h1 := hprunedpos t ht
    have h2 := (List.mem_filter.mp ht).2
    simp only [decide_eq_true_eq, not_and, not_le, decide_eq_true_eq] at h2 ⊢
    exact h2 h1.le
  refine ⟨hstate, ?_, ?_⟩
  · rw [hstate]
    have heq : (zremTo s (now - window)).filter
        (fun t => now - window < t) = zremTo s (now - window) :=
      List.filter_eq_self.mpr hkeep
    have hsfilter : s.filter (fun t => now - window < t) =
        zremTo s (now - window) := by
      unfold zremTo
      apply List.filter_congr
      intro t ht
      have h1 := hpos t ht
      have : (now - window < t) ↔ ¬ (0 ≤ t ∧ t ≤ now - window) := by
        constructor
        · rintro hlt ⟨_, hle⟩
          exact absurd hlt (not_lt.mpr hle)
        · intro hno
          by_contra hge
          push_neg at hge
          exact hno ⟨h1.le, hge⟩
      exact decide_eq_decide.mpr this
    rw [List.filter_append, heq, hsfilter]
    have hnowin : (now - window < now) := by linarith
    have hsingle : ([now] : List ℚ).filter (fun t => now - window < t) =
        [now] := by
      rw [List.filter_singleton, decide_eq_true hnowin]
      rfl
    rw [hsingle, List.length_append, List.length_singleton]
  · intro hal
    have hcount : ¬ (((zremTo s (now - window)).length : Int) < limit) := by
      have h := hal
      simp only [checkSlidingWindow] at h
      exact of_decide_eq_false h
    have hafter : zaddScore (zremTo s (now - window)) now =
        zremTo s (now - window) ++ [now] := by
      simp only [zaddScore]
      rw [if_neg hfresh']
    have holdpos :
        0 < oldestScore (zremTo s (now - window) ++ [now]) := by
      rcases hpr : zremTo s (now - window) with _ | ⟨p0, prest⟩
      · simpa [oldestScore] using hnow
      · simp only [List.cons_append, oldestScore]
        apply foldl_min_pos
        · exact hprunedpos p0 (by rw [hpr]; simp)
        · intro x hx
          rcases List.mem_append.mp hx with hx1 | hx2
          · exact hprunedpos x (by rw [hpr]; simp [hx1])
          · rw [List.mem_singleton.mp hx2]
            exact hnow
    rw [hstate]
    simp only [checkSlidingWindow, hafter, if_neg hcount]
    rcases hpr : zremTo s (now - window) with _ | ⟨p0, prest⟩
    · rw [hpr] at holdpos
      simp only [List.nil_append] at holdpos ⊢
      simp [ne_of_gt holdpos]
    · rw [hpr] at holdpos
      simp only [List.cons_append] at holdpos ⊢
      simp [ne_of_gt holdpos]

/-- Witness for `C10_sliding`: two prior requests at times 1 and 2, a third
at time 4 with limit 1 and window 3. -/
theorem C10_sliding_witness :
    (0 : Int) < 3 ∧
    ((checkSlidingWindow [1, 2] 4 1 3).state =
        zremTo [1, 2] (4 - 3) ++ [4] ∧
      ((checkSlidingWindow [1, 2] 4 1 3).state.filter
          (fun t => (4 : ℚ) - 3 < t)).length =
        (([1, 2] : List ℚ).filter (fun t => (4 : ℚ) - 3 < t)).length + 1 ∧
      ((checkSlidingWindow [1, 2] 4 1 3).allowed = false →
        (checkSlidingWindow [1, 2] 4 1 3).info.reset =
          ⌊oldestScore ((checkSlidingWindow [1, 2] 4 1 3).state) + 3⌋)) :=
  ⟨by decide,
   C10_sliding [1, 2] 4 1 3 (by decide) (by decide) (by decide) (by decide)⟩

end KodeJudge
